import Mathlib

/-!
Verification of the version-bumping core of `gitbump.py`.

Python strings are modelled as `List Char`; Python's `int()` on a version
component as `pyInt` (decimal digits only, which covers every component that
can arise from splitting a version string on `.` and `-`); `re.split('\.|-', s)`
as `pySplitOn isSep`; `str.split(sep)` as `pySplitOn` on the separator;
uncaught Python exceptions (ValueError, IndexError) as the `pyError` outcome;
`sys.exit(n)` as the `exit n` outcome.
-/

namespace GitBump

/-- Python string: a list of characters. -/
abbrev PyStr := List Char

/-- Characters on which `re.split('\.|-', ...)` splits (gitbump.py line 147). -/
def isSep (c : Char) : Bool := c = '.' || c = '-'

/-- `re.split` / `str.split` on the characters selected by `p`: splits at every
occurrence, keeping empty pieces between adjacent separators. -/
def pySplitOn (p : Char → Bool) : List Char → List (List Char)
  | [] => [[]]
  | c :: rest =>
    match pySplitOn p rest with
    | [] => [[]]
    | s :: ss => if p c then [] :: s :: ss else (c :: s) :: ss

/-- A character is a decimal digit (code point between 48 and 57). -/
def isDigitCh (c : Char) : Prop := 48 ≤ c.toNat ∧ c.toNat ≤ 57

instance (c : Char) : Decidable (isDigitCh c) := by
  unfold isDigitCh; infer_instance

/-- Value of a decimal digit character. -/
def charToDigit (c : Char) : Nat := c.toNat - 48

/-- The character for a decimal digit. -/
def digitChar (d : Nat) : Char := Char.ofNat (48 + d)

/-- Numeric value of a digit string, as Python's `int` computes it. -/
def charsVal (l : List Char) : Nat := l.foldl (fun a c => 10 * a + charToDigit c) 0

/-- Python `str.strip()`: remove leading and trailing whitespace. -/
def pyStrip (l : List Char) : List Char :=
  ((l.dropWhile Char.isWhitespace).reverse.dropWhile Char.isWhitespace).reverse

/-- Drop one leading `+` sign, as Python's `int()` allows. -/
def dropPlus (t : List Char) : List Char :=
  match t with
  | c :: rest => if c = '+' then rest else t
  | [] => t

/-- Continuation of Python's integer-literal grammar after the first digit:
digits with single underscores allowed between digits. -/
def digitsUndRest : List Char → Bool
  | [] => true
  | c :: rest =>
    if c = '_' then
      match rest with
      | [] => false
      | d :: rest2 => decide (isDigitCh d) && digitsUndRest rest2
    else decide (isDigitCh c) && digitsUndRest rest

/-- Python's integer-literal grammar: a digit followed by digits with single
underscores allowed between them. -/
def digitsUnd : List Char → Bool
  | [] => false
  | c :: rest => decide (isDigitCh c) && digitsUndRest rest

/-- Python `int(s)` on the strings that can reach it here (version components
split on `.` and `-`, and a `copyright` value containing no `-`): surrounding
whitespace is stripped, one `+` sign is allowed, then decimal digits with
single underscores between them; anything else raises `ValueError`. A `-`
sign can never occur in these arguments, so it is not modelled. -/
def pyInt (l : List Char) : Option Nat :=
  if digitsUnd (dropPlus (pyStrip l)) then
    some (charsVal ((dropPlus (pyStrip l)).filter (fun c => decide (c ≠ '_'))))
  else none

/-- Python `str(n)` for a natural number, via fuel-bounded division by 10. -/
def natToCharsAux : Nat → Nat → List Char → List Char
  | 0, _, acc => acc
  | fuel + 1, n, acc =>
    if n < 10 then digitChar n :: acc
    else natToCharsAux fuel (n / 10) (digitChar (n % 10) :: acc)

/-- Python `str(n)` for a natural number. -/
def natToChars (n : Nat) : List Char := natToCharsAux (n + 1) n []

/-- Python lexicographic string comparison `a < b` (by code point). -/
def pyStrLt : List Char → List Char → Bool
  | [], [] => false
  | [], _ :: _ => true
  | _ :: _, [] => false
  | a :: as, b :: bs =>
    if a.toNat < b.toNat then true
    else if a = b then pyStrLt as bs else false

/- ### Basic facts about digit rendering -/

theorem digitChar_toNat_all : ∀ d < 10, (digitChar d).toNat = 48 + d := by decide

theorem digitChar_toNat {d : Nat} (h : d < 10) : (digitChar d).toNat = 48 + d :=
  digitChar_toNat_all d h

theorem natToCharsAux_acc (fuel n : Nat) (acc : List Char) :
    natToCharsAux fuel n acc = natToCharsAux fuel n [] ++ acc := by
  induction fuel generalizing n acc with
  | zero => simp [natToCharsAux]
  | succ fuel ih =>
    by_cases h : n < 10
    · simp [natToCharsAux, h]
    · simp only [natToCharsAux, if_neg h]
      rw [ih (n / 10) (digitChar (n % 10) :: acc), ih (n / 10) [digitChar (n % 10)]]
      simp

theorem natToCharsAux_fuel (f₁ f₂ n : Nat) (h₁ : n < f₁) (h₂ : n < f₂) :
    natToCharsAux f₁ n [] = natToCharsAux f₂ n [] := by
  induction f₁ generalizing f₂ n with
  | zero => omega
  | succ f₁ ih =>
    cases f₂ with
    | zero => omega
    | succ f₂ =>
      by_cases h : n < 10
      · simp [natToCharsAux, h]
      · simp only [natToCharsAux, if_neg h]
        rw [natToCharsAux_acc f₁, natToCharsAux_acc f₂]
        have hn : 0 < n := by omega
        have hdiv : n / 10 < n := Nat.div_lt_self hn (by omega)
        rw [ih f₂ (n / 10) (by omega) (by omega)]

/-- Unfolding equation for `natToChars`. -/
theorem natToChars_eq (n : Nat) :
    natToChars n =
      if n < 10 then [digitChar n]
      else natToChars (n / 10) ++ [digitChar (n % 10)] := by
  by_cases h : n < 10
  · simp [natToChars, natToCharsAux, h]
  · rw [if_neg h]
    have step : natToChars n = natToCharsAux n (n / 10) [digitChar (n % 10)] := by
      simp only [natToChars, natToCharsAux, if_neg h]
    rw [step, natToCharsAux_acc n (n / 10)]
    have hn : 0 < n := by omega
    have hlt : n / 10 < n := Nat.div_lt_self hn (by omega)
    rw [natToCharsAux_fuel n (n / 10 + 1) (n / 10) (by omega) (by omega)]
    rfl

theorem natToChars_ne_nil (n : Nat) : natToChars n ≠ [] := by
  rw [natToChars_eq]
  by_cases h : n < 10 <;> simp [h]

theorem natToChars_digits (n : Nat) : ∀ c ∈ natToChars n, isDigitCh c := by
  induction n using Nat.strong_induction_on with
  | _ n ih =>
    rw [natToChars_eq]
    by_cases h : n < 10
    · simp only [if_pos h, List.mem_singleton]
      rintro c rfl
      constructor
      · rw [digitChar_toNat h]; omega
      · rw [digitChar_toNat h]; omega
    · simp only [if_neg h, List.mem_append, List.mem_singleton]
      rintro c (hc | rfl)
      · exact ih (n / 10) (Nat.div_lt_self (by omega) (by omega)) c hc
      · have h10 : n % 10 < 10 := Nat.mod_lt _ (by omega)
        constructor
        · rw [digitChar_toNat h10]; omega
        · rw [digitChar_toNat h10]; omega

theorem charsVal_append_digit (l : List Char) (c : Char) :
    charsVal (l ++ [c]) = 10 * charsVal l + charToDigit c := by
  simp [charsVal, List.foldl_append]

theorem charsVal_natToChars (n : Nat) : charsVal (natToChars n) = n := by
  induction n using Nat.strong_induction_on with
  | _ n ih =>
    rw [natToChars_eq]
    by_cases h : n < 10
    · simp only [if_pos h]
      simp [charsVal, charToDigit, digitChar_toNat h]
    · simp only [if_neg h]
      rw [charsVal_append_digit, ih (n / 10) (Nat.div_lt_self (by omega) (by omega))]
      have h10 : n % 10 < 10 := Nat.mod_lt _ (by omega)
      simp [charToDigit, digitChar_toNat h10]
      omega

theorem digit_not_whitespace {c : Char} (h : isDigitCh c) :
    c.isWhitespace = false := by
  have h32 : c ≠ ' ' := fun hc => absurd (hc ▸ h) (by decide)
  have h9 : c ≠ '\t' := fun hc => absurd (hc ▸ h) (by decide)
  have h13 : c ≠ '\r' := fun hc => absurd (hc ▸ h) (by decide)
  have h10 : c ≠ '\n' := fun hc => absurd (hc ▸ h) (by decide)
  simp [Char.isWhitespace, h32, h9, h13, h10]

theorem dropWhile_digits (l : List Char) (h : ∀ c ∈ l, isDigitCh c) :
    l.dropWhile Char.isWhitespace = l := by
  cases l with
  | nil => rfl
  | cons c rest =>
    rw [List.dropWhile_cons]
    simp [digit_not_whitespace (h c (List.mem_cons_self c rest))]

theorem pyStrip_digits (l : List Char) (h : ∀ c ∈ l, isDigitCh c) :
    pyStrip l = l := by
  unfold pyStrip
  rw [dropWhile_digits l h,
    dropWhile_digits _ (fun c hc => h c (List.mem_reverse.mp hc)),
    List.reverse_reverse]

theorem dropPlus_digits (l : List Char) (h : ∀ c ∈ l, isDigitCh c) :
    dropPlus l = l := by
  cases l with
  | nil => rfl
  | cons c rest =>
    have hne : c ≠ '+' :=
      fun hc => absurd (hc ▸ h c (List.mem_cons_self c rest)) (by decide)
    simp [dropPlus, hne]

theorem digitsUndRest_cons (c : Char) (rest : List Char) (hne : c ≠ '_') :
    digitsUndRest (c :: rest) = (decide (isDigitCh c) && digitsUndRest rest) := by
  rw [digitsUndRest.eq_def]
  simp [hne]

theorem digitsUndRest_digits (l : List Char) (h : ∀ c ∈ l, isDigitCh c) :
    digitsUndRest l = true := by
  induction l with
  | nil => rfl
  | cons c rest ih =>
    have hc := h c (List.mem_cons_self c rest)
    have hne : c ≠ '_' := fun he => absurd (he ▸ hc) (by decide)
    rw [digitsUndRest_cons c rest hne]
    simp [hc, ih (fun x hx => h x (List.mem_cons_of_mem c hx))]

theorem digitsUnd_digits (l : List Char) (hne : l ≠ []) (h : ∀ c ∈ l, isDigitCh c) :
    digitsUnd l = true := by
  cases l with
  | nil => exact absurd rfl hne
  | cons c rest =>
    simp [digitsUnd, h c (List.mem_cons_self c rest),
      digitsUndRest_digits rest (fun x hx => h x (List.mem_cons_of_mem c hx))]

theorem filter_digits (l : List Char) (h : ∀ c ∈ l, isDigitCh c) :
    l.filter (fun c => decide (c ≠ '_')) = l := by
  apply List.filter_eq_self.mpr
  intro c hc
  simp only [decide_eq_true_eq]
  exact fun he => absurd (he ▸ h c hc) (by decide)

/-- `int(str(n)) = n`: parsing the rendering of a natural number succeeds. -/
theorem pyInt_natToChars (n : Nat) : pyInt (natToChars n) = some n := by
  have hdig := natToChars_digits n
  unfold pyInt
  rw [pyStrip_digits _ hdig, dropPlus_digits _ hdig,
    if_pos (digitsUnd_digits _ (natToChars_ne_nil n) hdig),
    filter_digits _ hdig, charsVal_natToChars]

theorem natToChars_zero : natToChars 0 = ['0'] := by decide

theorem natToChars_eq_zero_iff (n : Nat) : natToChars n = ['0'] ↔ n = 0 := by
  constructor
  · intro h
    have := charsVal_natToChars n
    rw [h] at this
    simpa [charsVal, charToDigit] using this.symm
  · rintro rfl; exact natToChars_zero

/- ### Splitting lemmas -/

theorem pySplitOn_ne_nil (p : Char → Bool) (l : List Char) : pySplitOn p l ≠ [] := by
  cases l with
  | nil => simp [pySplitOn]
  | cons c rest =>
    simp only [pySplitOn]
    cases h : pySplitOn p rest with
    | nil => simp
    | cons s ss => by_cases hc : p c <;> simp [hc]

theorem pySplitOn_noSep (p : Char → Bool) (a : List Char)
    (ha : ∀ c ∈ a, p c = false) : pySplitOn p a = [a] := by
  induction a with
  | nil => rfl
  | cons c rest ih =>
    have hc : p c = false := ha c (List.mem_cons_self c rest)
    have hrest := ih (fun x hx => ha x (List.mem_cons_of_mem c hx))
    simp [pySplitOn, hrest, hc]

theorem pySplitOn_append_sep (p : Char → Bool) (a rest : List Char) (s : Char)
    (ha : ∀ c ∈ a, p c = false) (hs : p s = true) :
    pySplitOn p (a ++ s :: rest) = a :: pySplitOn p rest := by
  induction a with
  | nil =>
    simp only [List.nil_append, pySplitOn]
    cases h : pySplitOn p rest with
    | nil => exact absurd h (pySplitOn_ne_nil p rest)
    | cons t ts => simp [hs]
  | cons c cs ih =>
    have hc : p c = false := ha c (List.mem_cons_self c cs)
    have ih' := ih (fun x hx => ha x (List.mem_cons_of_mem c hx))
    simp only [List.cons_append, pySplitOn, hc, List.append_eq]
    rw [ih']
    simp

/- ### The data model of gitbump.py -/

/-- Release levels, mapped to indices as in the dict at gitbump.py lines 153-157. -/
inductive Level
  | major
  | minor
  | patch
deriving DecidableEq

/-- `{'major': 0, 'minor': 1, 'patch': 2}` (gitbump.py lines 153-157). -/
def levelIndex : Level → Nat
  | .major => 0
  | .minor => 1
  | .patch => 2

/-- The pre-release kinds selectable on the command line (`--alpha`, `--beta`,
`--rc`), stored as the strings `'alpha'`, `'beta'`, `'rc'`. -/
inductive Prerelease
  | alpha
  | beta
  | rc
deriving DecidableEq

/-- `self.prerelease[0]`: the first letter of the pre-release kind string. -/
def preChar : Prerelease → Char
  | .alpha => 'a'
  | .beta => 'b'
  | .rc => 'r'

/-- Rank of a pre-release kind in the total order alpha < beta < rc. -/
def kindRank : Prerelease → Nat
  | .alpha => 0
  | .beta => 1
  | .rc => 2

/-- A structured semantic version: `major.minor.patch` with an optional
pre-release suffix `-Kn` (kind and ordinal). -/
structure Version where
  major : Nat
  minor : Nat
  patch : Nat
  pre : Option (Prerelease × Nat)
deriving DecidableEq

/-- Rendering of the optional pre-release suffix: `-Kn` or nothing. -/
def renderPre : Option (Prerelease × Nat) → List Char
  | none => []
  | some (k, n) => '-' :: preChar k :: natToChars n

/-- The canonical version string `major.minor.patch[-Kn]` of a structured
version, as stored in the ini file. -/
def render (v : Version) : List Char :=
  natToChars v.major ++ '.' ::
    (natToChars v.minor ++ '.' :: (natToChars v.patch ++ renderPre v.pre))

/- ### The embedding of bump_version (gitbump.py lines 140-203) -/

/-- Outcome of `bump_version`: the new version string stored into
`self._ini_file_data['version']`, a `sys.exit(code)`, or an uncaught Python
exception (`ValueError` from `int()`, `IndexError` from subscripting). -/
inductive BumpResult
  | ok (v : List Char)
  | exit (code : Nat)
  | pyError
deriving DecidableEq

/-- `'.'.join(strings)`. -/
def joinDots : List (List Char) → List Char
  | [] => []
  | [a] => a
  | a :: b :: rest => a ++ '.' :: joinDots (b :: rest)

/-- Lines 147-150: `version = re.split('\.|-', ...)` followed by the `while`
loop that right-pads with `'0'` until there are at least three components. -/
def parse_version (s : List Char) : List (List Char) :=
  let v := pySplitOn isSep s
  v ++ List.replicate (3 - v.length) ['0']

/-- Lines 176-177 and 201-202: `for l in range(level+1, 3): version[l] = '0'`. -/
def zero_lower (version : List (List Char)) (level : Nat) : List (List Char) :=
  (List.range' (level + 1) (3 - (level + 1))).foldl (fun v l => v.set l ['0']) version

/-- Lines 174 and 200: `version[level] = f'{int(version[level])+1}'` followed
by the zeroing loop; `none` models the uncaught `ValueError` from `int()`. -/
def incr_at (version : List (List Char)) (level : Nat) : Option (List (List Char)) :=
  match pyInt (version.getD level []) with
  | none => none
  | some n => some (zero_lower (version.set level (natToChars (n + 1))) level)

/-- The body of `bump_version` (gitbump.py lines 159-203) after the version
string has been split and padded: `version` is the component list, `level` the
index of the requested release level, and the third argument
`self.prerelease`. -/
def bump_core (version : List (List Char)) (level : Nat) :
    Option Prerelease → BumpResult
  | none =>
    if version.length = 4 then
      -- lines 161-170: a pre-release is in play and none was requested
      if (List.range' (level + 1) (3 - (level + 1))).any
          (fun l => decide (version.getD l [] ≠ ['0'])) then
        .exit 5
      else
        .ok (joinDots (version.take 3))
    else
      -- lines 172-180: plain increment of the requested level
      match incr_at version level with
      | none => .pyError
      | some v2 => .ok (joinDots v2)
  | some pre =>
    if version.length = 4 then
      -- lines 182-196: a pre-release flag is already in play
      if pyStrLt [preChar pre] (version.getD 0 []) then
        .exit 4
      else if [preChar pre] = version.getD 0 [] then
        -- line 191: version[3] = f'{version[3][0]}{int(version[3][1])+1}'
        match (version.getD 3 []).get? 0, (version.getD 3 []).get? 1 with
        | some c0, some c1 =>
          (match pyInt [c1] with
           | none => .pyError
           | some n =>
             .ok (joinDots (version.take 3) ++ '-' :: c0 :: natToChars (n + 1)))
        | _, _ => .pyError
      else
        -- line 196: start the next pre-release from 0
        .ok (joinDots (version.take 3) ++ '-' :: preChar pre :: ['0'])
    else
      -- lines 198-203: increment the level and attach a fresh pre-release
      match incr_at version level with
      | none => .pyError
      | some v2 => .ok (joinDots (v2.take 3) ++ '-' :: preChar pre :: ['0'])

/-- `BumpVersion.bump_version` (gitbump.py lines 140-203) as a function of the
current version string, the requested level and the requested pre-release
kind. -/
def bump_version (s : List Char) (levelName : Level)
    (prerelease : Option Prerelease) : BumpResult :=
  bump_core (parse_version s) (levelIndex levelName) prerelease

/- ### Evaluating the embedding on canonically rendered versions -/

theorem preChar_not_sep (k : Prerelease) : isSep (preChar k) = false := by
  cases k <;> decide

theorem isSep_of_digit {c : Char} (h : isDigitCh c) : isSep c = false := by
  unfold isSep
  have h46 : c ≠ '.' := fun hc => absurd (hc ▸ h) (by decide)
  have h45 : c ≠ '-' := fun hc => absurd (hc ▸ h) (by decide)
  simp [h46, h45]

theorem natToChars_sepFree (n : Nat) : ∀ c ∈ natToChars n, isSep c = false :=
  fun c hc => isSep_of_digit (natToChars_digits n c hc)

theorem preSuffix_sepFree (k : Prerelease) (n : Nat) :
    ∀ c ∈ preChar k :: natToChars n, isSep c = false := by
  intro c hc
  rcases List.mem_cons.mp hc with rfl | hc
  · exact preChar_not_sep k
  · exact natToChars_sepFree n c hc

theorem split_render (v : Version) :
    pySplitOn isSep (render v) =
      [natToChars v.major, natToChars v.minor, natToChars v.patch] ++
        (match v.pre with
         | none => []
         | some (k, n) => [preChar k :: natToChars n]) := by
  obtain ⟨M, m, p, pre⟩ := v
  cases pre with
  | none =>
    simp only [render, renderPre, List.append_nil]
    rw [pySplitOn_append_sep isSep _ _ '.' (natToChars_sepFree M) rfl]
    rw [pySplitOn_append_sep isSep _ _ '.' (natToChars_sepFree m) rfl]
    rw [pySplitOn_noSep isSep _ (natToChars_sepFree p)]
  | some kn =>
    obtain ⟨k, n⟩ := kn
    simp only [render, renderPre]
    rw [pySplitOn_append_sep isSep _ _ '.' (natToChars_sepFree M) rfl]
    rw [pySplitOn_append_sep isSep _ _ '.' (natToChars_sepFree m) rfl]
    rw [pySplitOn_append_sep isSep _ _ '-' (natToChars_sepFree p) rfl]
    rw [pySplitOn_noSep isSep _ (preSuffix_sepFree k n)]
    simp

theorem parse_render_release (M m p : Nat) :
    parse_version (render ⟨M, m, p, none⟩) =
      [natToChars M, natToChars m, natToChars p] := by
  simp [parse_version, split_render ⟨M, m, p, none⟩]

theorem parse_render_pre (M m p : Nat) (k : Prerelease) (n : Nat) :
    parse_version (render ⟨M, m, p, some (k, n)⟩) =
      [natToChars M, natToChars m, natToChars p, preChar k :: natToChars n] := by
  simp [parse_version, split_render ⟨M, m, p, some (k, n)⟩]

theorem incr_at_0 (M : Nat) (B C : List Char) :
    incr_at [natToChars M, B, C] 0 = some [natToChars (M + 1), ['0'], ['0']] := by
  simp [incr_at, pyInt_natToChars, zero_lower, List.range']

theorem incr_at_1 (A : List Char) (m : Nat) (C : List Char) :
    incr_at [A, natToChars m, C] 1 = some [A, natToChars (m + 1), ['0']] := by
  simp [incr_at, pyInt_natToChars, zero_lower, List.range']

theorem incr_at_2 (A B : List Char) (p : Nat) :
    incr_at [A, B, natToChars p] 2 = some [A, B, natToChars (p + 1)] := by
  simp [incr_at, pyInt_natToChars, zero_lower, List.range']

theorem natToChars_head (n : Nat) :
    ∃ d rest, natToChars n = d :: rest ∧ isDigitCh d := by
  cases h : natToChars n with
  | nil => exact absurd h (natToChars_ne_nil n)
  | cons d rest =>
    refine ⟨d, rest, rfl, natToChars_digits n d ?_⟩
    rw [h]
    exact List.mem_cons_self d rest

theorem preChar_toNat (k : Prerelease) : 97 ≤ (preChar k).toNat := by
  cases k <;> decide

/-- The comparison `self.prerelease[0] < version[0]` at gitbump.py line 185
compares the requested kind letter with the major component, so for a numeric
major it is always false (letters sort above digits). -/
theorem pyStrLt_preChar_natToChars (k : Prerelease) (M : Nat) :
    pyStrLt [preChar k] (natToChars M) = false := by
  obtain ⟨d, rest, hM, hd⟩ := natToChars_head M
  rw [hM]
  have h1 : ¬ (preChar k).toNat < d.toNat := by
    have := preChar_toNat k
    have := hd.2
    omega
  have h2 : preChar k ≠ d := by
    intro he
    have ha := preChar_toNat k
    have hb := hd.2
    rw [he] at ha
    omega
  simp [pyStrLt, h1, h2]

/-- Likewise, `self.prerelease[0] == version[0]` at line 189 is always false
for a numeric major component. -/
theorem preChar_ne_natToChars (k : Prerelease) (M : Nat) :
    [preChar k] ≠ natToChars M := by
  obtain ⟨d, rest, hM, hd⟩ := natToChars_head M
  rw [hM]
  intro he
  have hpd : preChar k = d := (List.cons.injEq _ _ _ _ ▸ he).1
  have ha := preChar_toNat k
  have hb := hd.2
  rw [hpd] at ha
  omega

/-- The bumped release version the specification describes: the requested
level incremented by one, all less-significant components zeroed. -/
def nextRelease (v : Version) : Level → Version
  | .major => ⟨v.major + 1, 0, 0, none⟩
  | .minor => ⟨v.major, v.minor + 1, 0, none⟩
  | .patch => ⟨v.major, v.minor, v.patch + 1, none⟩

/-- The graduation precondition of the specification: every component less
significant than the requested level is currently 0. -/
def lowerComponentsZero (l : Level) (v : Version) : Bool :=
  match l with
  | .major => decide (v.minor = 0) && decide (v.patch = 0)
  | .minor => decide (v.patch = 0)
  | .patch => true

theorem bump_release_eq (M m p : Nat) (l : Level) :
    bump_version (render ⟨M, m, p, none⟩) l none =
      .ok (render (nextRelease ⟨M, m, p, none⟩ l)) := by
  cases l with
  | major =>
    rw [bump_version, parse_render_release]
    simp [bump_core, levelIndex, incr_at_0, joinDots, nextRelease, render,
      renderPre, natToChars_zero]
  | minor =>
    rw [bump_version, parse_render_release]
    simp [bump_core, levelIndex, incr_at_1, joinDots, nextRelease, render,
      renderPre, natToChars_zero]
  | patch =>
    rw [bump_version, parse_render_release]
    simp [bump_core, levelIndex, incr_at_2, joinDots, nextRelease, render,
      renderPre, natToChars_zero]

theorem bump_graduate_eq (M m p : Nat) (k : Prerelease) (n : Nat) (l : Level) :
    bump_version (render ⟨M, m, p, some (k, n)⟩) l none =
      if lowerComponentsZero l ⟨M, m, p, some (k, n)⟩ then
        .ok (render ⟨M, m, p, none⟩)
      else .exit 5 := by
  cases l with
  | major =>
    rw [bump_version, parse_render_pre]
    by_cases hm : m = 0 <;> by_cases hp : p = 0 <;>
      simp [bump_core, levelIndex, List.range', lowerComponentsZero, hm, hp,
        natToChars_eq_zero_iff, natToChars_zero, joinDots, render, renderPre]
  | minor =>
    rw [bump_version, parse_render_pre]
    by_cases hp : p = 0 <;>
      simp [bump_core, levelIndex, List.range', lowerComponentsZero, hp,
        natToChars_eq_zero_iff, natToChars_zero, joinDots, render, renderPre]
  | patch =>
    rw [bump_version, parse_render_pre]
    simp [bump_core, levelIndex, List.range', lowerComponentsZero, joinDots,
      render, renderPre]

/-- For canonically rendered pre-release versions, a requested pre-release
kind always lands in the `else` branch of lines 194-196 (restart at ordinal
0 with the requested kind), whatever the stored kind is. -/
theorem bump_pre_requested_eq (M m p : Nat) (k : Prerelease) (n : Nat)
    (l : Level) (req : Prerelease) :
    bump_version (render ⟨M, m, p, some (k, n)⟩) l (some req) =
      .ok (render ⟨M, m, p, some (req, 0)⟩) := by
  rw [bump_version, parse_render_pre]
  simp [bump_core, pyStrLt_preChar_natToChars, preChar_ne_natToChars,
    joinDots, render, renderPre, natToChars_zero]

theorem bump_release_pre_eq (M m p : Nat) (l : Level) (req : Prerelease) :
    bump_version (render ⟨M, m, p, none⟩) l (some req) =
      .ok (render { nextRelease ⟨M, m, p, none⟩ l with pre := some (req, 0) }) := by
  cases l with
  | major =>
    rw [bump_version, parse_render_release]
    simp [bump_core, levelIndex, incr_at_0, joinDots, nextRelease, render,
      renderPre, natToChars_zero]
  | minor =>
    rw [bump_version, parse_render_release]
    simp [bump_core, levelIndex, incr_at_1, joinDots, nextRelease, render,
      renderPre, natToChars_zero]
  | patch =>
    rw [bump_version, parse_render_release]
    simp [bump_core, levelIndex, incr_at_2, joinDots, nextRelease, render,
      renderPre, natToChars_zero]

/- ### The claims about bump_version -/

/-- C1: for every current version `M.m.p-Kn` and every requested level, when no
pre-release kind is requested the graduation succeeds iff every numeric
component less significant than the level is 0; on success the result is
exactly the release version `M.m.p` with the suffix dropped and nothing
incremented, and on failure it is the invalid-transition error
(`sys.exit(5)`, gitbump.py lines 164-170). -/
theorem claim_C1 (v : Version) (k : Prerelease) (n : Nat)
    (hpre : v.pre = some (k, n)) (l : Level) :
    bump_version (render v) l none =
      if lowerComponentsZero l v then
        .ok (render ⟨v.major, v.minor, v.patch, none⟩)
      else .exit 5 := by
  obtain ⟨M, m, p, pre⟩ := v
  cases hpre
  exact bump_graduate_eq M m p k n l

theorem claim_C1_witness :
    bump_version (render ⟨1, 3, 0, some (.alpha, 1)⟩) .minor none =
      .ok (render ⟨1, 3, 0, none⟩) := by
  rw [claim_C1 ⟨1, 3, 0, some (.alpha, 1)⟩ .alpha 1 rfl .minor]
  decide

/-- C2 is a code bug: graduating-down the pre-release kind must fail according
to both the claim and the script's own module docstring ("If a pre-release
flag is already being used and lower pre-release flag is used then git bump
exits with an error"), but line 185 compares the requested kind letter with
`version[0]` — the major component — instead of the stored suffix kind
`version[3][0]`, so the regression check never fires for a numeric major:
bumping `1.0.0-b0` with kind alpha succeeds and stores `1.0.0-a0`. -/
theorem claim_C2_bug_eval :
    bump_version (render ⟨1, 0, 0, some (.beta, 0)⟩) .minor (some .alpha) =
      .ok (render ⟨1, 0, 0, some (.alpha, 0)⟩) := by decide

/-- C3 is a code bug: a same-kind pre-release bump must increment the ordinal
(`1.3.0-a0` + alpha → `1.3.0-a1` per the claim and the module docstring
"When a pre-release flag is used when a pre-release flag is already in play
then it is incremented"), but because line 185/189 compare against the major
component rather than the suffix kind, the same-kind branch at lines 189-192
is unreachable and the code instead restarts the track at ordinal 0:
`1.3.0-a0` + alpha yields `1.3.0-a0` again. -/
theorem claim_C3_bug_eval :
    bump_version (render ⟨1, 3, 0, some (.alpha, 0)⟩) .minor (some .alpha) =
      .ok (render ⟨1, 3, 0, some (.alpha, 0)⟩) := by decide

/-- C4: for every current pre-release version and a requested kind strictly
greater than the stored kind (alpha < beta < rc), the bump succeeds with the
requested kind at ordinal 0, numeric components unchanged and the requested
level ignored (gitbump.py lines 194-196). -/
theorem claim_C4 (v : Version) (k : Prerelease) (n : Nat)
    (hpre : v.pre = some (k, n)) (req : Prerelease)
    (_hlt : kindRank k < kindRank req) (l : Level) :
    bump_version (render v) l (some req) =
      .ok (render ⟨v.major, v.minor, v.patch, some (req, 0)⟩) := by
  obtain ⟨M, m, p, pre⟩ := v
  cases hpre
  exact bump_pre_requested_eq M m p k n l req

theorem claim_C4_witness :
    kindRank .alpha < kindRank .beta ∧
      bump_version (render ⟨1, 3, 0, some (.alpha, 1)⟩) .minor (some .beta) =
        .ok (render ⟨1, 3, 0, some (.beta, 0)⟩) :=
  ⟨by decide,
   claim_C4 ⟨1, 3, 0, some (.alpha, 1)⟩ .alpha 1 rfl .beta (by decide) .minor⟩

/-- C5: for every release version (no pre-release suffix) and every level,
when no pre-release kind is requested the bump increments the requested
component by 1, keeps the more significant components and zeroes the less
significant ones (gitbump.py lines 172-180). -/
theorem claim_C5 (v : Version) (hpre : v.pre = none) (l : Level) :
    bump_version (render v) l none = .ok (render (nextRelease v l)) := by
  obtain ⟨M, m, p, pre⟩ := v
  cases hpre
  exact bump_release_eq M m p l

theorem claim_C5_witness :
    bump_version (render ⟨1, 2, 3, none⟩) .patch none =
      .ok (render (nextRelease ⟨1, 2, 3, none⟩ .patch)) :=
  claim_C5 ⟨1, 2, 3, none⟩ rfl .patch

/-- C6: for every release version, every level and every requested pre-release
kind, the bump increments the level as in C5 and attaches the requested kind
at ordinal 0 (gitbump.py lines 198-203). -/
theorem claim_C6 (v : Version) (hpre : v.pre = none) (l : Level)
    (req : Prerelease) :
    bump_version (render v) l (some req) =
      .ok (render { nextRelease v l with pre := some (req, 0) }) := by
  obtain ⟨M, m, p, pre⟩ := v
  cases hpre
  exact bump_release_pre_eq M m p l req

theorem claim_C6_witness :
    bump_version (render ⟨1, 2, 3, none⟩) .minor (some .alpha) =
      .ok (render { nextRelease ⟨1, 2, 3, none⟩ .minor with pre := some (.alpha, 0) }) :=
  claim_C6 ⟨1, 2, 3, none⟩ rfl .minor .alpha

/- ### C7: parse / serialize round trip -/

/-- Serialization as performed when the new version is written back into
`self._ini_file_data['version']`: `'.'.join(version[:3])`, with `-{suffix}`
appended when a fourth component is present (gitbump.py lines 170, 180, 192,
196, 203). -/
def serialize_version (version : List (List Char)) : List Char :=
  if version.length = 4 then
    joinDots (version.take 3) ++ '-' :: version.getD 3 []
  else joinDots version

/-- A numeral: a non-empty string of decimal digits. -/
def isNumeral (l : List Char) : Prop := l ≠ [] ∧ ∀ c ∈ l, isDigitCh c

instance (l : List Char) : Decidable (isNumeral l) := by
  unfold isNumeral; infer_instance

/-- Well-formed version strings of the two supported shapes `N.N.N` and
`N.N.N-KX`, where `K` is a single-letter pre-release kind code and `X` a
decimal ordinal. -/
def wellFormedVersion (s : List Char) : Prop :=
  (∃ a b c, isNumeral a ∧ isNumeral b ∧ isNumeral c ∧
    s = a ++ '.' :: (b ++ '.' :: c)) ∨
  (∃ a b c k x, isNumeral a ∧ isNumeral b ∧ isNumeral c ∧
    k ∈ (['a', 'b', 'r'] : List Char) ∧ isNumeral x ∧
    s = a ++ '.' :: (b ++ '.' :: (c ++ '-' :: k :: x)))

/-- C7: serializing the result of parsing a well-formed version string yields
the same string back. -/
theorem claim_C7 (s : List Char) (h : wellFormedVersion s) :
    serialize_version (parse_version s) = s := by
  rcases h with ⟨a, b, c, ha, hb, hc, rfl⟩ |
    ⟨a, b, c, k, x, ha, hb, hc, hk, hx, rfl⟩
  · have hsplit : pySplitOn isSep (a ++ '.' :: (b ++ '.' :: c)) = [a, b, c] := by
      rw [pySplitOn_append_sep isSep _ _ '.'
        (fun ch hch => isSep_of_digit (ha.2 ch hch)) rfl]
      rw [pySplitOn_append_sep isSep _ _ '.'
        (fun ch hch => isSep_of_digit (hb.2 ch hch)) rfl]
      rw [pySplitOn_noSep isSep _ (fun ch hch => isSep_of_digit (hc.2 ch hch))]
    simp [parse_version, hsplit, serialize_version, joinDots]
  · have hkx : ∀ ch ∈ k :: x, isSep ch = false := by
      intro ch hch
      rcases List.mem_cons.mp hch with rfl | hch
      · simp only [List.mem_cons, List.not_mem_nil, or_false] at hk
        rcases hk with rfl | rfl | rfl <;> decide
      · exact isSep_of_digit (hx.2 ch hch)
    have hsplit :
        pySplitOn isSep (a ++ '.' :: (b ++ '.' :: (c ++ '-' :: k :: x))) =
          [a, b, c, k :: x] := by
      rw [pySplitOn_append_sep isSep _ _ '.'
        (fun ch hch => isSep_of_digit (ha.2 ch hch)) rfl]
      rw [pySplitOn_append_sep isSep _ _ '.'
        (fun ch hch => isSep_of_digit (hb.2 ch hch)) rfl]
      rw [pySplitOn_append_sep isSep _ _ '-'
        (fun ch hch => isSep_of_digit (hc.2 ch hch)) rfl]
      rw [pySplitOn_noSep isSep _ hkx]
    simp [parse_version, hsplit, serialize_version, joinDots]

theorem claim_C7_witness :
    wellFormedVersion ("1.2.3-a0".data) ∧
      serialize_version (parse_version ("1.2.3-a0".data)) = "1.2.3-a0".data := by
  have hwf : wellFormedVersion ("1.2.3-a0".data) :=
    Or.inr ⟨['1'], ['2'], ['3'], 'a', ['0'], by decide, by decide, by decide,
      by decide, by decide, by decide⟩
  exact ⟨hwf, claim_C7 _ hwf⟩

/- ### C8: malformed numeric components -/

/-- C8 counterexample: the claim says a version string with a component in
numeric position that fails to parse as an integer makes the bump fail with a
typed `MalformedVersionError`. gitbump.py defines no such error class, and a
malformed component in a position the code never converts causes no failure
at all: bumping `1.x.3-a1` with kind alpha succeeds and stores `1.x.3-a0`. -/
theorem claim_C8_counterexample :
    bump_version ("1.x.3-a1".data) .minor (some .alpha) =
      .ok ("1.x.3-a0".data) := by decide

/-- C8 amended: with no pre-release suffix in play, a component that fails to
parse as an integer at the requested level makes `int()` at line 174 raise an
uncaught `ValueError` (modelled `pyError`) — an untyped crash, not a
`MalformedVersionError`; components in positions the code does not convert
are not checked at all. -/
theorem claim_C8_amended (a b c : List Char) (l : Level)
    (ha : ∀ ch ∈ a, isSep ch = false)
    (hb : ∀ ch ∈ b, isSep ch = false)
    (hc : ∀ ch ∈ c, isSep ch = false)
    (hbad : pyInt (([a, b, c] : List (List Char)).getD (levelIndex l) []) = none) :
    bump_version (a ++ '.' :: (b ++ '.' :: c)) l none = .pyError := by
  have hsplit : pySplitOn isSep (a ++ '.' :: (b ++ '.' :: c)) = [a, b, c] := by
    rw [pySplitOn_append_sep isSep _ _ '.' ha rfl]
    rw [pySplitOn_append_sep isSep _ _ '.' hb rfl]
    rw [pySplitOn_noSep isSep _ hc]
  rw [bump_version]
  have hp : parse_version (a ++ '.' :: (b ++ '.' :: c)) = [a, b, c] := by
    simp [parse_version, hsplit]
  rw [hp]
  cases l <;> simp_all [bump_core, levelIndex, incr_at]

theorem claim_C8_amended_witness :
    bump_version ((['x'] : List Char) ++ '.' :: (['2'] ++ '.' :: ['3'])) .major none =
      .pyError :=
  claim_C8_amended ['x'] ['2'] ['3'] .major (by decide) (by decide) (by decide)
    (by decide)

/- ### The ini-file and orchestration model (read_ini_file, update_ini_file,
git; gitbump.py lines 46-57, 206-244, 247-280) -/

/-- Failure of a run: `sys.exit(code)` or an uncaught Python exception. -/
inductive RunError
  | exit (code : Nat)
  | pyError
deriving DecidableEq

def exceptDecEq {ε α : Type} [DecidableEq ε] [DecidableEq α] :
    DecidableEq (Except ε α)
  | .error a, .error b =>
    if h : a = b then .isTrue (by rw [h])
    else .isFalse (by intro hh; cases hh; exact h rfl)
  | .error _, .ok _ => .isFalse (by intro h; cases h)
  | .ok _, .error _ => .isFalse (by intro h; cases h)
  | .ok a, .ok b =>
    if h : a = b then .isTrue (by rw [h])
    else .isFalse (by intro hh; cases hh; exact h rfl)

instance {ε α : Type} [DecidableEq ε] [DecidableEq α] :
    DecidableEq (Except ε α) := exceptDecEq

/-- Python dict assignment `d[k] = v` on an insertion-ordered association
list: overwrite in place if the key exists, otherwise append. -/
def dictSet : List (List Char × List Char) → List Char → List Char →
    List (List Char × List Char)
  | [], k, v => [(k, v)]
  | (k', v') :: rest, k, v =>
    if k' = k then (k, v) :: rest else (k', v') :: dictSet rest k v

/-- Python dict lookup `d.get(k)`. -/
def dictGet : List (List Char × List Char) → List Char → Option (List Char)
  | [], _ => none
  | (k', v) :: rest, k => if k' = k then some v else dictGet rest k

/-- Lines 233-236: `key, value = line.split('=')` for each line, storing the
stripped pair; a line without exactly one `=` raises an uncaught `ValueError`
(modelled as `none`). -/
def parse_ini_lines : List (List Char) → List (List Char × List Char) →
    Option (List (List Char × List Char))
  | [], data => some data
  | line :: rest, data =>
    match pySplitOn (fun c => decide (c = '=')) line with
    | [k, v] => parse_ini_lines rest (dictSet data (pyStrip k) (pyStrip v))
    | _ => none

/-- The `version` key of the ini data. -/
def versionKey : List Char := "version".data

/-- The `release date` key of the ini data. -/
def releaseDateKey : List Char := "release date".data

/-- The `copyright` key of the ini data. -/
def copyrightKey : List Char := "copyright".data

/-- `read_ini_file` (gitbump.py lines 206-244). `explicitPath` is whether
`-i` was given; `fileOk` whether the named or discovered file can be opened:
a missing explicit file exits 2 (line 229), a failing open of a discovered
file exits 3 via `FileNotFoundError` (line 240), and a parsed file without a
`version` key exits 2 (line 244). -/
def read_ini_file (explicitPath fileOk : Bool) (lines : List (List Char)) :
    Except RunError (List (List Char × List Char)) :=
  if explicitPath && !fileOk then .error (.exit 2)
  else if !fileOk then .error (.exit 3)
  else
    match parse_ini_lines lines [] with
    | none => .error .pyError
    | some data =>
      if (dictGet data versionKey).isSome then .ok data
      else .error (.exit 2)

/-- `needle` starts `hay`. -/
def listStarts : List Char → List Char → Bool
  | [], _ => true
  | _ :: _, [] => false
  | a :: as, b :: bs => decide (a = b) && listStarts as bs

/-- Python substring test `needle in hay`. -/
def hasSub (needle : List Char) : List Char → Bool
  | [] => needle.isEmpty
  | c :: rest => listStarts needle (c :: rest) || hasSub needle rest

/-- The `git` wrapper (gitbump.py lines 46-57): `sys.exit(1)` when the
command fails or writes to stderr, unless stderr mentions
`spelling errors`. -/
def git_exit (returncode : Int) (stderr : List Char) : Option Nat :=
  if (decide (returncode ≠ 0) || decide (stderr ≠ [])) &&
      !hasSub ("spelling errors".data) stderr then some 1
  else none

/-- `f'{copyr} {extra}'` when a trailing word was present. -/
def withExtra (c e : List Char) : List Char := if e = [] then c else c ++ ' ' :: e

/-- The copyright-updating block of `update_ini_file` (gitbump.py lines
257-275), with `year` the current year (`f'{now:%Y}'`, rendered by
`natToChars`): a two-word value is split into `copyr` and `extra` (any other
word count leaves the value whole, the `ValueError` being caught at line
260); a range `a-b` has its end replaced by the current year; otherwise a
copyright year in the future exits 6 and a past year becomes a range. -/
def update_copyright (val : List Char) (year : Nat) : Except RunError (List Char) :=
  let ce : List Char × List Char :=
    match pySplitOn (fun c => decide (c = ' ')) val with
    | [a, b] => (a, b)
    | _ => (val, [])
  if ce.1.contains '-' then
    match pySplitOn (fun c => decide (c = '-')) ce.1 with
    | [one, _] => .ok (withExtra (one ++ '-' :: natToChars year) ce.2)
    | _ => .error .pyError
  else
    match pyInt ce.1 with
    | none => .error .pyError
    | some c =>
      if year < c then .error (.exit 6)
      else if ce.1 ≠ natToChars year then
        .ok (withExtra (ce.1 ++ '-' :: natToChars year) ce.2)
      else .ok (withExtra ce.1 ce.2)

/-- Lines 252-254: overwrite the `release date` value when the key is
present. -/
def refresh_release_date (data : List (List Char × List Char))
    (dateStr : List Char) : List (List Char × List Char) :=
  match dictGet data releaseDateKey with
  | some _ => dictSet data releaseDateKey dateStr
  | none => data

/-- `update_ini_file` (gitbump.py lines 247-280) at the data level: refresh
the release date when that key is present, update the copyright when that key
is present (possibly exiting 6), and return the mapping that is then written
back, one `key = value` line per key in order. -/
def update_ini_data (data : List (List Char × List Char)) (dateStr : List Char)
    (year : Nat) : Except RunError (List (List Char × List Char)) :=
  match dictGet (refresh_release_date data dateStr) copyrightKey with
  | none => .ok (refresh_release_date data dateStr)
  | some v =>
    match update_copyright v year with
    | .error e => .error e
    | .ok c => .ok (dictSet (refresh_release_date data dateStr) copyrightKey c)

/-- One bump cycle at the data level (`BumpVersion.__init__`, gitbump.py
lines 96-113, minus the git calls): read the located ini file's lines, bump
the `version` value, update the dates, and return the mapping written back. -/
def bump_and_write (lines : List (List Char)) (levelName : Level)
    (prerelease : Option Prerelease) (dateStr : List Char) (year : Nat) :
    Except RunError (List (List Char × List Char)) :=
  match parse_ini_lines lines [] with
  | none => .error .pyError
  | some data =>
    match dictGet data versionKey with
    | none => .error (.exit 2)
    | some ver =>
      match bump_version ver levelName prerelease with
      | .exit n => .error (.exit n)
      | .pyError => .error .pyError
      | .ok newVer =>
        update_ini_data (dictSet data versionKey newVer) dateStr year


theorem dictGet_dictSet_ne (d : List (List Char × List Char)) (k v k' : List Char)
    (h : k' ≠ k) : dictGet (dictSet d k v) k' = dictGet d k' := by
  induction d with
  | nil => simp [dictSet, dictGet, Ne.symm h]
  | cons kv rest ih =>
    obtain ⟨k0, v0⟩ := kv
    by_cases hk : k0 = k
    · subst hk
      simp [dictSet, dictGet, Ne.symm h]
    · by_cases h0 : k0 = k' <;> simp [dictSet, dictGet, hk, h0, h, ih]

theorem dictSet_map_fst (d : List (List Char × List Char)) (k v : List Char)
    (h : (dictGet d k).isSome) :
    (dictSet d k v).map Prod.fst = d.map Prod.fst := by
  induction d with
  | nil => simp [dictGet] at h
  | cons kv rest ih =>
    obtain ⟨k0, v0⟩ := kv
    by_cases hk : k0 = k
    · subst hk; simp [dictSet]
    · simp only [dictSet, if_neg hk, List.map_cons]
      rw [ih]
      simpa [dictGet, hk] using h

theorem refresh_map_fst (data : List (List Char × List Char)) (dateStr : List Char) :
    (refresh_release_date data dateStr).map Prod.fst = data.map Prod.fst := by
  unfold refresh_release_date
  cases h : dictGet data releaseDateKey with
  | none => rfl
  | some v => exact dictSet_map_fst _ _ _ (by simp [h])

theorem refresh_get_ne (data : List (List Char × List Char)) (dateStr key : List Char)
    (h : key ≠ releaseDateKey) :
    dictGet (refresh_release_date data dateStr) key = dictGet data key := by
  unfold refresh_release_date
  cases hg : dictGet data releaseDateKey with
  | none => rfl
  | some v => exact dictGet_dictSet_ne _ _ _ _ h

/-- C10: for every ini file whose lines are well-formed `key = value` pairs,
a successful bump-and-write cycle writes back every key other than `version`,
`release date` and `copyright` with its whitespace-stripped value unchanged,
and neither adds nor removes any key: the written mapping has the same keys
in the same order as the parsed one, and lookups at all other keys agree. -/
theorem claim_C10 (lines : List (List Char)) (l : Level) (pre : Option Prerelease)
    (dateStr : List Char) (year : Nat) (data data' : List (List Char × List Char))
    (hparse : parse_ini_lines lines [] = some data)
    (hrun : bump_and_write lines l pre dateStr year = .ok data') :
    data'.map Prod.fst = data.map Prod.fst ∧
      ∀ key, key ≠ versionKey → key ≠ releaseDateKey → key ≠ copyrightKey →
        dictGet data' key = dictGet data key := by
  rw [bump_and_write] at hrun
  simp only [hparse] at hrun
  cases hver : dictGet data versionKey with
  | none => simp only [hver] at hrun; exact (Except.noConfusion hrun)
  | some ver =>
    simp only [hver] at hrun
    cases hbv : bump_version ver l pre with
    | exit n => simp only [hbv] at hrun; exact (Except.noConfusion hrun)
    | pyError => simp only [hbv] at hrun; exact (Except.noConfusion hrun)
    | ok newVer =>
      simp only [hbv] at hrun
      rw [update_ini_data] at hrun
      have hd0fst : (dictSet data versionKey newVer).map Prod.fst = data.map Prod.fst :=
        dictSet_map_fst _ _ _ (by simp [hver])
      have hd0get : ∀ key, key ≠ versionKey →
          dictGet (dictSet data versionKey newVer) key = dictGet data key :=
        fun key hk => dictGet_dictSet_ne _ _ _ _ hk
      cases hcp : dictGet (refresh_release_date (dictSet data versionKey newVer) dateStr)
          copyrightKey with
      | none =>
        simp only [hcp] at hrun
        injection hrun with h
        subst h
        refine ⟨by rw [refresh_map_fst, hd0fst], fun key hk hr _ => ?_⟩
        rw [refresh_get_ne _ _ _ hr, hd0get key hk]
      | some v =>
        simp only [hcp] at hrun
        cases hup : update_copyright v year with
        | error e => simp only [hup] at hrun; exact (Except.noConfusion hrun)
        | ok cnew =>
          simp only [hup] at hrun
          injection hrun with h
          subst h
          constructor
          · rw [dictSet_map_fst _ _ _ (by simp [hcp]), refresh_map_fst, hd0fst]
          · intro key hk hr hc
            rw [dictGet_dictSet_ne _ _ _ _ hc, refresh_get_ne _ _ _ hr, hd0get key hk]


/- ### C9: exit codes -/

/-- C9 counterexample: the claim says the six failure classes get pairwise
distinct non-zero exit codes, but "no config file found" with an explicitly
named ini file (`-i`, gitbump.py line 229) and "version key missing" (line
244) both terminate with `sys.exit(2)`. -/
theorem claim_C9_counterexample :
    read_ini_file true false [] = .error (.exit 2) ∧
      read_ini_file false true [("name = gitbump".data)] = .error (.exit 2) := by
  decide

/-- C9 amended: success returns normally (exit status 0); VCS failures exit 1,
a missing auto-discovered ini file exits 3, a missing explicitly named ini
file exits 2 — the same code as a missing `version` key (2), so the codes are
not pairwise distinct — a release-after-pre-release transition exits 5, the
pre-release-regression error site exits 4 (though for well-formed versions
with a numeric major it is unreachable and the regression instead succeeds,
see C2), and a future copyright date exits 6. -/
theorem claim_C9_amended_eval :
    git_exit 1 [] = some 1 ∧
      read_ini_file false false [] = .error (.exit 3) ∧
      read_ini_file true false [] = .error (.exit 2) ∧
      read_ini_file false true [("name = gitbump".data)] = .error (.exit 2) ∧
      bump_version ("1.3.0-a1".data) .major none = .exit 5 ∧
      bump_version ("x.0.0-b0".data) .minor (some .alpha) = .exit 4 ∧
      bump_version ("1.0.0-b0".data) .minor (some .alpha) =
        .ok ("1.0.0-a0".data) ∧
      update_copyright ("2030".data) 2026 = .error (.exit 6) ∧
      bump_and_write [("version = 1.2.3".data)] .patch none ("d".data) 2026 =
        .ok [(versionKey, "1.2.4".data)] := by
  decide

theorem claim_C10_witness :
    parse_ini_lines [("version = 1.2.3".data), ("name = gitbump".data)] [] =
        some [(versionKey, "1.2.3".data), ("name".data, "gitbump".data)] ∧
      bump_and_write [("version = 1.2.3".data), ("name = gitbump".data)] .patch
          none ("1 May 2026".data) 2026 =
        .ok [(versionKey, "1.2.4".data), ("name".data, "gitbump".data)] ∧
      ([(versionKey, "1.2.4".data), ("name".data, "gitbump".data)].map Prod.fst =
          [(versionKey, "1.2.3".data), ("name".data, "gitbump".data)].map Prod.fst ∧
        ∀ key, key ≠ versionKey → key ≠ releaseDateKey → key ≠ copyrightKey →
          dictGet [(versionKey, "1.2.4".data), ("name".data, "gitbump".data)] key =
            dictGet [(versionKey, "1.2.3".data), ("name".data, "gitbump".data)] key) :=
  ⟨by decide, by decide,
   claim_C10 [("version = 1.2.3".data), ("name = gitbump".data)] .patch none
     ("1 May 2026".data) 2026
     [(versionKey, "1.2.3".data), ("name".data, "gitbump".data)]
     [(versionKey, "1.2.4".data), ("name".data, "gitbump".data)]
     (by decide) (by decide)⟩

end GitBump
